import Mathlib

/-!
# Verification of the mcp-map-server session/transport layer and tool handlers

Shallow embedding of the TypeScript sources of `mcp-map-server`:

* `BaseMcpServer.ts` — the HTTP session/transport manager (`startHttpServer`'s
  POST handler, `handleSessionRequest` for GET/DELETE, `transport.onclose`,
  `stopHttpServer`).
* `tools/maps/searchNearby.ts`, `tools/maps/placeDetails.ts`,
  `tools/maps/elevation.ts` — the three tool `ACTION` handlers.
* `services/RiskScapeTools.ts` — `searchNearbyPlaces`, `parseCoordinates`,
  `calculateDistanceMatrix`.

Network I/O (the upstream `PlacesSearcher` / geocoding calls) and the behaviour
of the MCP SDK's protocol layer (session initialization, schema validation in
the dispatcher) are external to the repository; they enter the model as
explicit parameters, and definitions taken from the spec rather than from a
source file say so in their doc comments.
-/

namespace McpMap

/-! ## Session/transport layer (`BaseMcpServer.ts`)

The session table `private transports: { [sessionId: string]: ... }` is
modelled as an association list from session ids to transport records.
Session ids are modelled as naturals; `randomUUID()`'s guarantee of producing
a never-before-seen identifier is modelled by drawing ids from a monotone
counter `nextSid` and recording every id ever handed out in `allocated`. -/

abbrev SessionId := Nat

/-- A `StreamableHTTPServerTransport` as far as this layer observes it:
an identity token (to tell transports apart) and the `transport.sessionId`
field, which the SDK sets to the generated id when the session initializes
and which is `none` for a transport that never initialized. -/
structure TransportRec where
  token : Nat
  sessionId : Option SessionId
deriving DecidableEq, Repr

abbrev SessionTable := List (SessionId × TransportRec)

/-- `this.transports[sessionId]` — lookup in the session table. -/
def lookupSession (tbl : SessionTable) (sid : SessionId) : Option TransportRec :=
  match tbl.find? (fun e => e.1 == sid) with
  | some e => some e.2
  | none => none

/-- `delete this.transports[sid]` — remove the entry keyed `sid`. -/
def deleteKey (tbl : SessionTable) (sid : SessionId) : SessionTable :=
  tbl.filter (fun e => !(e.1 == sid))

/-- The mutable state of one `BaseMcpServer`: the session table, the ghost
list of all session ids ever generated (modelling `randomUUID`'s freshness),
and the two freshness counters. -/
structure ServerState where
  transports : SessionTable
  allocated : List SessionId
  nextSid : SessionId
  nextToken : Nat
deriving DecidableEq, Repr

/-- The state right after construction: `transports = {}`. -/
def initialState : ServerState :=
  { transports := [], allocated := [], nextSid := 0, nextToken := 0 }

/-- Everything the POST handler `app.post("/mcp", ...)` does that is visible
to a caller: the updated state, whether `res.setHeader('mcp-session-id', sid)`
ran (and with which id), whether a new transport was constructed, which fresh
session id (if any) was allocated, and the token of the transport whose
`handleRequest` was invoked at the end. -/
structure PostOutcome where
  state : ServerState
  headerSid : Option SessionId
  constructedNew : Bool
  allocatedSid : Option SessionId
  forwardedTo : Nat
deriving DecidableEq, Repr

/-- The `else` branch of the POST handler: no usable session header.
`const newSessionId = randomUUID()` becomes drawing `s.nextSid`; the SDK
fires `onsessioninitialized` during `transport.handleRequest` exactly when
the protocol layer initializes the session, which the model receives as the
boolean `initializes`.  The callback body (from the source) inserts the
transport into the table and sets the response header; `initializes = false`
models a transport that is constructed but never initializes, so neither
effect happens. -/
def handlePostNew (s : ServerState) (initializes : Bool) : PostOutcome :=
  { state :=
      { transports :=
          if initializes then
            (s.nextSid, { token := s.nextToken, sessionId := some s.nextSid })
              :: s.transports
          else s.transports
        allocated := s.allocated ++ [s.nextSid]
        nextSid := s.nextSid + 1
        nextToken := s.nextToken + 1 }
    headerSid := if initializes then some s.nextSid else none
    constructedNew := true
    allocatedSid := some s.nextSid
    forwardedTo := s.nextToken }

/-- The POST handler `app.post("/mcp", ...)`:
`if (sessionId && this.transports[sessionId]) { reuse } else { create new }`,
then `await transport.handleRequest(req, res, req.body)`. -/
def handlePost (s : ServerState) (hdr : Option SessionId) (initializes : Bool) :
    PostOutcome :=
  match hdr with
  | some sid =>
    match lookupSession s.transports sid with
    | some t =>
      { state := s, headerSid := none, constructedNew := false
        allocatedSid := none, forwardedTo := t.token }
    | none => handlePostNew s initializes
  | none => handlePostNew s initializes

/-- Response of the shared GET/DELETE handler: either the early
`res.status(400).send(...)` or forwarding to `transport.handleRequest`. -/
inductive SessionResponse where
  | rejected400
  | forwarded (token : Nat)
deriving DecidableEq, Repr

structure SessionOutcome where
  state : ServerState
  response : SessionResponse
deriving DecidableEq, Repr

/-- `handleSessionRequest`, registered for both `app.get` and `app.delete`:
`if (!sessionId || !this.transports[sessionId]) { res.status(400)...; return }`
else forward to the matched transport. -/
def handleSessionRequest (s : ServerState) (hdr : Option SessionId) :
    SessionOutcome :=
  match hdr with
  | none => { state := s, response := .rejected400 }
  | some sid =>
    match lookupSession s.transports sid with
    | none => { state := s, response := .rejected400 }
    | some t => { state := s, response := .forwarded t.token }

/-- `transport.onclose`: `if (transport.sessionId) delete
this.transports[transport.sessionId]`.  The argument is the closing
transport's `sessionId` field. -/
def onTransportClose (s : ServerState) (tSessionId : Option SessionId) :
    ServerState :=
  match tSessionId with
  | some sid => { s with transports := deleteKey s.transports sid }
  | none => s

/-- The cleanup loop in `stopHttpServer`: iterate over a snapshot of
`Object.values(this.transports)` and for each transport
`if (transport.sessionId) delete this.transports[transport.sessionId]`. -/
def stopCleanup (vals : List (SessionId × TransportRec)) (tbl : SessionTable) :
    SessionTable :=
  match vals with
  | [] => tbl
  | (_, t) :: rest =>
    stopCleanup rest
      (match t.sessionId with
       | some sid => deleteKey tbl sid
       | none => tbl)

/-- `stopHttpServer`: if `this.httpServer` is null (`running = false`) it only
warns and returns; if `httpServer.close` reports an error (`closeErr = true`)
it rejects before the cleanup loop; otherwise it runs the cleanup loop over a
snapshot of the table's values. -/
def stopHttpServer (s : ServerState) (running closeErr : Bool) : ServerState :=
  if !running || closeErr then s
  else { s with transports := stopCleanup s.transports s.transports }

/-- One externally triggered step of the transport manager.  `close` is
over-approximated: any `sessionId` value may close at any time (the real
system only closes constructed transports, a subset of these events). -/
inductive Step : ServerState → ServerState → Prop where
  | post (s : ServerState) (hdr : Option SessionId) (init : Bool) :
      Step s (handlePost s hdr init).state
  | sessionReq (s : ServerState) (hdr : Option SessionId) :
      Step s (handleSessionRequest s hdr).state
  | close (s : ServerState) (sid : Option SessionId) :
      Step s (onTransportClose s sid)
  | stop (s : ServerState) (running closeErr : Bool) :
      Step s (stopHttpServer s running closeErr)

/-- States reachable from the freshly constructed server. -/
inductive Reach : ServerState → Prop where
  | init : Reach initialState
  | step {s s' : ServerState} : Reach s → Step s s' → Reach s'

/-- The session-table invariant: every registered transport carries its own
key as `sessionId`; every key and every ever-allocated id is below the
freshness counter; keys are pairwise distinct. -/
def TableInv (s : ServerState) : Prop :=
  (∀ e ∈ s.transports, e.2.sessionId = some e.1 ∧ e.1 < s.nextSid) ∧
  (s.transports.map Prod.fst).Nodup ∧
  (∀ a ∈ s.allocated, a < s.nextSid)

/-! ### Invariant preservation -/

lemma lookupSession_eq_none_iff (tbl : SessionTable) (sid : SessionId) :
    lookupSession tbl sid = none ↔ sid ∉ tbl.map Prod.fst := by
  unfold lookupSession
  constructor
  · intro h hmem
    obtain ⟨e, he, hfst⟩ := List.mem_map.mp hmem
    cases hfind : tbl.find? (fun e => e.1 == sid) with
    | none =>
      have := List.find?_eq_none.mp hfind e he
      simp [hfst] at this
    | some e' => simp [hfind] at h
  · intro h
    cases hfind : tbl.find? (fun e => e.1 == sid) with
    | none => simp [hfind]
    | some e' =>
      have hmem := List.mem_of_find?_eq_some hfind
      have hp := List.find?_some hfind
      have : e'.1 = sid := by simpa using hp
      exact absurd (List.mem_map.mpr ⟨e', hmem, this⟩) h

lemma lookupSession_mem {tbl : SessionTable} {sid : SessionId} {t : TransportRec}
    (h : lookupSession tbl sid = some t) : (sid, t) ∈ tbl := by
  unfold lookupSession at h
  cases hfind : tbl.find? (fun e => e.1 == sid) with
  | none => simp [hfind] at h
  | some e =>
    simp only [hfind] at h
    have hmem := List.mem_of_find?_eq_some hfind
    have hp := List.find?_some hfind
    have h1 : e.1 = sid := by simpa using hp
    have h2 : e.2 = t := by injection h
    have : e = (sid, t) := by
      cases e; simp_all
    rwa [this] at hmem

lemma deleteKey_sublist (tbl : SessionTable) (sid : SessionId) :
    List.Sublist (deleteKey tbl sid) tbl :=
  List.filter_sublist tbl

lemma stopCleanup_sublist (vals : List (SessionId × TransportRec))
    (tbl : SessionTable) : List.Sublist (stopCleanup vals tbl) tbl := by
  induction vals generalizing tbl with
  | nil => exact List.Sublist.refl tbl
  | cons v rest ih =>
    obtain ⟨k, t⟩ := v
    cases h : t.sessionId with
    | none => simpa [stopCleanup, h] using ih tbl
    | some sid =>
      have h1 := ih (deleteKey tbl sid)
      have h2 := deleteKey_sublist tbl sid
      simpa [stopCleanup, h] using h1.trans h2

/-- When every table value records its own key as `sessionId`, the
`stopHttpServer` cleanup loop empties the table. -/
lemma stopCleanup_eq_nil (vals : List (SessionId × TransportRec)) :
    ∀ tbl : SessionTable, (∀ e ∈ tbl, e ∈ vals) →
      (∀ e ∈ vals, e.2.sessionId = some e.1) → stopCleanup vals tbl = [] := by
  induction vals with
  | nil =>
    intro tbl hsub _
    cases htbl : tbl with
    | nil => simp [stopCleanup]
    | cons e rest => exact absurd (hsub e (htbl ▸ List.mem_cons_self e rest)) (by simp)
  | cons v rest ih =>
    intro tbl hsub hinv
    obtain ⟨k, t⟩ := v
    have hv : t.sessionId = some k := hinv (k, t) (List.mem_cons_self _ _)
    simp only [stopCleanup, hv]
    apply ih
    · intro e he
      have he2 := List.mem_filter.mp he
      have he' : e ∈ tbl := he2.1
      have hek : e.1 ≠ k := by simpa using he2.2
      rcases List.mem_cons.mp (hsub e he') with h | h
      · exact absurd (congrArg Prod.fst h) hek
      · exact h
    · intro e he
      exact hinv e (List.mem_cons_of_mem _ he)

/-- Every reachable state of the transport manager satisfies the
session-table invariant. -/
lemma handleSessionRequest_state (s : ServerState) (hdr : Option SessionId) :
    (handleSessionRequest s hdr).state = s := by
  cases hdr with
  | none => rfl
  | some sid =>
    cases hlook : lookupSession s.transports sid with
    | none => simp [handleSessionRequest, hlook]
    | some t => simp [handleSessionRequest, hlook]

lemma handlePost_reuse {s : ServerState} {sid : SessionId} {t : TransportRec}
    (h : lookupSession s.transports sid = some t) (init : Bool) :
    handlePost s (some sid) init =
      { state := s, headerSid := none, constructedNew := false
        allocatedSid := none, forwardedTo := t.token } := by
  simp [handlePost, h]

lemma handlePost_new {s : ServerState} {hdr : Option SessionId}
    (h : hdr = none ∨ ∀ sid, hdr = some sid → lookupSession s.transports sid = none)
    (init : Bool) : handlePost s hdr init = handlePostNew s init := by
  cases hdr with
  | none => rfl
  | some sid =>
    rcases h with h | h
    · exact absurd h (by simp)
    · simp [handlePost, h sid rfl]

lemma stopHttpServer_noRun (s : ServerState) (running closeErr : Bool)
    (h : running = false ∨ closeErr = true) :
    stopHttpServer s running closeErr = s := by
  rcases h with h | h <;> simp [stopHttpServer, h]

lemma tableInv_handlePostNew {s : ServerState} (hInv : TableInv s)
    (init : Bool) : TableInv (handlePostNew s init).state := by
  obtain ⟨hEnt, hNodup, hAlloc⟩ := hInv
  refine ⟨?_, ?_, ?_⟩
  · intro e he
    cases init with
    | true =>
      simp only [handlePostNew, if_pos rfl] at he ⊢
      rcases List.mem_cons.mp he with he | he
      · simp [he]
      · exact ⟨(hEnt e he).1, Nat.lt_succ_of_lt (hEnt e he).2⟩
    | false =>
      simp only [handlePostNew] at he ⊢
      rw [if_neg (by simp)] at he
      exact ⟨(hEnt e he).1, Nat.lt_succ_of_lt (hEnt e he).2⟩
  · cases init with
    | true =>
      simp only [handlePostNew, if_pos rfl, List.map_cons]
      refine List.nodup_cons.mpr ⟨?_, hNodup⟩
      intro hmem
      obtain ⟨e, he, hfst⟩ := List.mem_map.mp hmem
      exact absurd (hfst ▸ (hEnt e he).2) (lt_irrefl _)
    | false => simpa [handlePostNew] using hNodup
  · intro a ha
    simp only [handlePostNew, List.mem_append, List.mem_singleton] at ha ⊢
    rcases ha with ha | ha
    · exact Nat.lt_succ_of_lt (hAlloc a ha)
    · simp [ha]

lemma tableInv_step {s s' : ServerState} (hInv : TableInv s)
    (hstep : Step s s') : TableInv s' := by
  cases hstep with
  | post hdr init =>
    cases hdr with
    | none => exact tableInv_handlePostNew hInv init
    | some sid =>
      cases hlook : lookupSession s.transports sid with
      | none =>
        rw [handlePost_new (Or.inr (by intro x hx; injection hx with hx; exact hx ▸ hlook)) init]
        exact tableInv_handlePostNew hInv init
      | some t =>
        rw [handlePost_reuse hlook init]
        exact hInv
  | sessionReq hdr =>
    rw [handleSessionRequest_state]
    exact hInv
  | close sid =>
    obtain ⟨hEnt, hNodup, hAlloc⟩ := hInv
    cases sid with
    | none => exact ⟨hEnt, hNodup, hAlloc⟩
    | some sid =>
      refine ⟨?_, ?_, hAlloc⟩
      · intro e he
        exact hEnt e ((deleteKey_sublist s.transports sid).mem he)
      · exact List.Nodup.sublist
          (List.Sublist.map Prod.fst (deleteKey_sublist s.transports sid)) hNodup
  | stop running closeErr =>
    obtain ⟨hEnt, hNodup, hAlloc⟩ := hInv
    cases running with
    | false =>
      rw [stopHttpServer_noRun s false closeErr (Or.inl rfl)]
      exact ⟨hEnt, hNodup, hAlloc⟩
    | true =>
      cases closeErr with
      | true =>
        rw [stopHttpServer_noRun s true true (Or.inr rfl)]
        exact ⟨hEnt, hNodup, hAlloc⟩
      | false =>
        have hsub := stopCleanup_sublist s.transports s.transports
        have hstate : stopHttpServer s true false =
            { s with transports := stopCleanup s.transports s.transports } := by
          simp [stopHttpServer]
        rw [hstate]
        refine ⟨?_, ?_, hAlloc⟩
        · intro e he
          exact hEnt e (hsub.mem he)
        · exact List.Nodup.sublist (List.Sublist.map Prod.fst hsub) hNodup

/-- Every reachable state of the transport manager satisfies the
session-table invariant. -/
theorem reach_tableInv {s : ServerState} (h : Reach s) : TableInv s := by
  induction h with
  | init => refine ⟨?_, ?_, ?_⟩ <;> simp [initialState]
  | step _ hstep ih => exact tableInv_step ih hstep

lemma lookup_deleteKey_self (tbl : SessionTable) (sid : SessionId) :
    lookupSession (deleteKey tbl sid) sid = none := by
  rw [lookupSession_eq_none_iff]
  intro hmem
  obtain ⟨e, he, hfst⟩ := List.mem_map.mp hmem
  have := (List.mem_filter.mp he).2
  simp [hfst] at this

lemma lookup_not_mem {s : ServerState} (hInv : TableInv s) :
    lookupSession s.transports s.nextSid = none := by
  rw [lookupSession_eq_none_iff]
  intro hmem
  obtain ⟨e, he, hfst⟩ := List.mem_map.mp hmem
  exact absurd (hfst ▸ (hInv.1 e he).2) (lt_irrefl _)

/-! ## Claims about the session/transport layer -/

/-- **C1.** For every POST to `/mcp` that carries no `mcp-session-id` header
and whose body is a valid request (modelled as: the protocol layer
initializes the session, `initializes = true`), the response carries a new,
previously-unseen session identifier in the `mcp-session-id` response header,
and a subsequent GET or DELETE bearing that identifier is accepted
(forwarded to the transport, not rejected with status 400). -/
theorem post_no_header_fresh_session_accepted
    (s : ServerState) (h : Reach s) :
    ∃ sid tok,
      (handlePost s none true).headerSid = some sid ∧
      sid ∉ s.allocated ∧
      sid ∉ s.transports.map Prod.fst ∧
      (handleSessionRequest (handlePost s none true).state (some sid)).response
        = .forwarded tok ∧
      SessionResponse.forwarded tok ≠ SessionResponse.rejected400 := by
  obtain ⟨hEnt, hNodup, hAlloc⟩ := reach_tableInv h
  refine ⟨s.nextSid, s.nextToken, rfl, ?_, ?_, ?_, by simp⟩
  · intro hmem
    exact absurd (hAlloc _ hmem) (lt_irrefl _)
  · intro hmem
    obtain ⟨e, he, hfst⟩ := List.mem_map.mp hmem
    exact absurd (hfst ▸ (hEnt e he).2) (lt_irrefl _)
  · simp [handlePost, handlePostNew, handleSessionRequest, lookupSession]

/-- Witness for C1 at the freshly constructed server. -/
theorem post_no_header_fresh_session_accepted_witness :
    ∃ sid tok,
      (handlePost initialState none true).headerSid = some sid ∧
      sid ∉ initialState.allocated ∧
      sid ∉ initialState.transports.map Prod.fst ∧
      (handleSessionRequest (handlePost initialState none true).state
        (some sid)).response = .forwarded tok ∧
      SessionResponse.forwarded tok ≠ SessionResponse.rejected400 :=
  post_no_header_fresh_session_accepted initialState Reach.init

/-- **C2.** Every GET or DELETE whose `mcp-session-id` header is missing, or
names an identifier with no live entry in the session table, is answered by
`res.status(400)` and nothing else happens: the session table (indeed the
whole server state) is unchanged and no transport's `handleRequest` runs
(the response is `rejected400`, never `forwarded`). -/
theorem getdelete_unknown_session_rejected
    (s : ServerState) (hdr : Option SessionId)
    (h : hdr = none ∨
      ∀ sid, hdr = some sid → lookupSession s.transports sid = none) :
    (handleSessionRequest s hdr).response = .rejected400 ∧
    (handleSessionRequest s hdr).state = s := by
  refine ⟨?_, handleSessionRequest_state s hdr⟩
  cases hdr with
  | none => rfl
  | some sid =>
    rcases h with h | h
    · exact absurd h (by simp)
    · simp [handleSessionRequest, h sid rfl]

/-- Witness for C2: a GET/DELETE with an unknown id against the fresh
server is rejected with 400 and leaves the state untouched. -/
theorem getdelete_unknown_session_rejected_witness :
    (handleSessionRequest initialState (some 5)).response = .rejected400 ∧
    (handleSessionRequest initialState (some 5)).state = initialState :=
  getdelete_unknown_session_rejected initialState (some 5)
    (Or.inr (by intro sid hs; injection hs with hs; subst hs; rfl))

/-- **C3.** For every POST whose `mcp-session-id` header is absent or names
an identifier not in the session table, a fresh globally-unique session id is
allocated and a new transport constructed; the transport is inserted into the
table exactly once and only when the protocol layer reports the session
initialized (`init = true`); a transport that never initializes is never
registered; and exactly at initialization the `mcp-session-id` response
header is set to the new identifier. -/
theorem post_unknown_session_creates_fresh
    (s : ServerState) (hreach : Reach s) (hdr : Option SessionId) (init : Bool)
    (h : hdr = none ∨
      ∀ sid, hdr = some sid → lookupSession s.transports sid = none) :
    (handlePost s hdr init).constructedNew = true ∧
    (handlePost s hdr init).allocatedSid = some s.nextSid ∧
    s.nextSid ∉ s.allocated ∧
    ((handlePost s hdr init).state.transports.map Prod.fst).count s.nextSid
      = (if init then 1 else 0) ∧
    (handlePost s hdr init).headerSid
      = (if init then some s.nextSid else none) := by
  obtain ⟨hEnt, hNodup, hAlloc⟩ := reach_tableInv hreach
  rw [handlePost_new h init]
  have hfresh : s.nextSid ∉ s.transports.map Prod.fst := by
    intro hmem
    obtain ⟨e, he, hfst⟩ := List.mem_map.mp hmem
    exact absurd (hfst ▸ (hEnt e he).2) (lt_irrefl _)
  refine ⟨rfl, rfl, ?_, ?_, ?_⟩
  · intro hmem
    exact absurd (hAlloc _ hmem) (lt_irrefl _)
  · cases init with
    | true =>
      have htbl : (handlePostNew s true).state.transports
          = (s.nextSid, { token := s.nextToken, sessionId := some s.nextSid })
            :: s.transports := by
        simp [handlePostNew]
      rw [htbl]
      simp [List.count_cons_self, List.count_eq_zero.mpr hfresh]
    | false =>
      have htbl : (handlePostNew s false).state.transports = s.transports := by
        simp [handlePostNew]
      rw [htbl]
      simp [List.count_eq_zero.mpr hfresh]
  · cases init with
    | true => rfl
    | false => rfl

/-- Witness for C3 at the fresh server, with an initializing request. -/
theorem post_unknown_session_creates_fresh_witness :
    (handlePost initialState none true).constructedNew = true ∧
    (handlePost initialState none true).allocatedSid
      = some initialState.nextSid ∧
    initialState.nextSid ∉ initialState.allocated ∧
    ((handlePost initialState none true).state.transports.map
      Prod.fst).count initialState.nextSid = (if true then 1 else 0) ∧
    (handlePost initialState none true).headerSid
      = (if true then some initialState.nextSid else none) :=
  post_unknown_session_creates_fresh initialState Reach.init none true
    (Or.inl rfl)

/-- **C4.** Whenever a registered transport closes — whatever triggered the
`onclose` callback — its session-table entry is removed and its identifier is
no longer reachable through the table; and a successful `stopHttpServer`
(server running, `httpServer.close` reporting no error) releases every
remaining session-table entry. -/
theorem transport_close_and_shutdown_release_entries
    (s : ServerState) (hreach : Reach s) :
    (∀ e ∈ s.transports,
        lookupSession (onTransportClose s e.2.sessionId).transports e.1
          = none) ∧
    (stopHttpServer s true false).transports = [] ∧
    (∀ sid,
        lookupSession (stopHttpServer s true false).transports sid = none) := by
  obtain ⟨hEnt, hNodup, hAlloc⟩ := reach_tableInv hreach
  have hstop : (stopHttpServer s true false).transports = [] := by
    have : stopHttpServer s true false =
        { s with transports := stopCleanup s.transports s.transports } := by
      simp [stopHttpServer]
    rw [this]
    exact stopCleanup_eq_nil s.transports s.transports (fun e he => he)
      (fun e he => (hEnt e he).1)
  refine ⟨?_, hstop, ?_⟩
  · intro e he
    rw [(hEnt e he).1]
    exact lookup_deleteKey_self s.transports e.1
  · intro sid
    rw [hstop]
    rfl

/-- Witness for C4: after one session is created and initialized, closing its
transport removes it, and shutdown leaves an empty table. -/
theorem transport_close_and_shutdown_release_entries_witness :
    (lookupSession
      (onTransportClose (handlePost initialState none true).state
        (some 0)).transports 0 = none) ∧
    (stopHttpServer (handlePost initialState none true).state true
      false).transports = [] := by
  have h := transport_close_and_shutdown_release_entries
    (handlePost initialState none true).state
    (Reach.step Reach.init (Step.post initialState none true))
  exact ⟨h.1 (0, { token := 0, sessionId := some 0 }) (by decide), h.2.1⟩

/-- **C5.** In every reachable state the session table maps each identifier
to at most one live transport (its key list has no duplicates); registering a
newly initialized session never overwrites a live entry for the same
identifier (the fresh id allocated by any POST has no entry yet); and an
identifier absent from the table is never serviced by GET or DELETE. -/
theorem session_table_unique_and_guarded (s : ServerState) (hreach : Reach s) :
    (s.transports.map Prod.fst).Nodup ∧
    (∀ hdr init sid, (handlePost s hdr init).allocatedSid = some sid →
        lookupSession s.transports sid = none) ∧
    (∀ sid, lookupSession s.transports sid = none →
        (handleSessionRequest s (some sid)).response = .rejected400) := by
  have hInv := reach_tableInv hreach
  refine ⟨hInv.2.1, ?_, ?_⟩
  · intro hdr init sid halloc
    have hsid : sid = s.nextSid := by
      cases hdr with
      | none =>
        simp [handlePost, handlePostNew] at halloc
        exact halloc.symm
      | some sid' =>
        cases hlook : lookupSession s.transports sid' with
        | none =>
          have hcond : (some sid' : Option SessionId) = none ∨
              ∀ x, (some sid' : Option SessionId) = some x →
                lookupSession s.transports x = none := by
            refine Or.inr ?_
            intro x hx
            injection hx with hx
            exact hx ▸ hlook
          rw [handlePost_new hcond init] at halloc
          simp [handlePostNew] at halloc
          exact halloc.symm
        | some t =>
          rw [handlePost_reuse hlook init] at halloc
          exact absurd halloc (by simp)
    rw [hsid]
    exact lookup_not_mem hInv
  · intro sid hlook
    simp [handleSessionRequest, hlook]

/-- Witness for C5 at the fresh server. -/
theorem session_table_unique_and_guarded_witness :
    (handleSessionRequest initialState (some 3)).response = .rejected400 := by
  have h := session_table_unique_and_guarded initialState Reach.init
  exact h.2.2 3 rfl

/-- **C6.** For every POST whose `mcp-session-id` header names an identifier
present in the session table, the request is forwarded to that session's
transport and nothing new is created: no new transport is constructed, no new
session id is allocated, and the whole server state — in particular the
session table with its keys and bindings — is unchanged by the routing
step. -/
theorem post_known_session_reuses_transport
    (s : ServerState) (sid : SessionId) (t : TransportRec) (init : Bool)
    (h : lookupSession s.transports sid = some t) :
    (handlePost s (some sid) init).state = s ∧
    (handlePost s (some sid) init).constructedNew = false ∧
    (handlePost s (some sid) init).allocatedSid = none ∧
    (handlePost s (some sid) init).forwardedTo = t.token := by
  rw [handlePost_reuse h init]
  exact ⟨rfl, rfl, rfl, rfl⟩

/-- Witness for C6: posting with the id of the one live session routes to
that session's transport and changes nothing. -/
theorem post_known_session_reuses_transport_witness :
    (handlePost (handlePost initialState none true).state (some 0)
      true).state = (handlePost initialState none true).state ∧
    (handlePost (handlePost initialState none true).state (some 0)
      true).constructedNew = false ∧
    (handlePost (handlePost initialState none true).state (some 0)
      true).allocatedSid = none ∧
    (handlePost (handlePost initialState none true).state (some 0)
      true).forwardedTo = 0 := by
  have h := post_known_session_reuses_transport
    (handlePost initialState none true).state 0
    { token := 0, sessionId := some 0 } true (by decide)
  exact ⟨h.1, h.2.1, h.2.2.1, h.2.2.2⟩

/-! ## Tool handlers (`searchNearby.ts`, `placeDetails.ts`, the elevation
tool) -/

/-- One element of a result's `content` array. -/
inductive ContentBlock where
  | text (s : String)
deriving DecidableEq, Repr

/-- A Tool Invocation Result `{ content, isError }` as the three handlers
build it (all three set `isError` explicitly in every branch). -/
structure ToolResult where
  content : List ContentBlock
  isError : Bool
deriving DecidableEq, Repr

/-- The observable behaviour of one `await placesSearcher.<op>(...)` call
(the `PlacesSearcher` service lives outside the `src/` tree, so the handler
is verified against every behaviour the call can exhibit):
`ok` — the promise resolves with `success: true` and a payload;
`fail` — it resolves with `success: false` and an optional `error` string;
`thrown` — the call (or the `new PlacesSearcher()` construction) throws, and
`msg` is the string the `catch` block extracts (`error.message` for `Error`
instances, `JSON.stringify(error)` otherwise). -/
inductive SearcherOutcome (α : Type) where
  | ok (data : α)
  | fail (err : Option String)
  | thrown (msg : String)
deriving DecidableEq, Repr

/-- `true` on the `fail`/`thrown` branches. -/
def SearcherOutcome.isFault {α : Type} : SearcherOutcome α → Bool
  | .ok _ => false
  | .fail _ => true
  | .thrown _ => true

/-- Successful payload of `placesSearcher.searchNearby`: the JSON
serializations of `result.location` and `result.data`. -/
structure SearchNearbyOk where
  locationJson : String
  dataJson : String
deriving DecidableEq, Repr

/-- `ACTION` of the `search_nearby` tool (`searchNearby.ts`). -/
def searchNearbyACTION (o : SearcherOutcome SearchNearbyOk) : ToolResult :=
  match o with
  | .thrown msg =>
    { content := [.text ("Error searching nearby places: " ++ msg)]
      isError := true }
  | .fail err =>
    { content := [.text (err.getD "Search failed")], isError := true }
  | .ok d =>
    { content := [.text ("location: " ++ d.locationJson ++ "\n" ++ d.dataJson)]
      isError := false }

/-- `ACTION` of the `get_place_details` tool (`placeDetails.ts`); the `ok`
payload is the JSON serialization of `result.data`. -/
def placeDetailsACTION (o : SearcherOutcome String) : ToolResult :=
  match o with
  | .thrown msg =>
    { content := [.text ("Error getting place details: " ++ msg)]
      isError := true }
  | .fail err =>
    { content := [.text (err.getD "Failed to get place details")]
      isError := true }
  | .ok d => { content := [.text d], isError := false }

/-- `ACTION` of the `maps_elevation` tool; the `ok` payload is the JSON
serialization of `result.data`. -/
def elevationACTION (o : SearcherOutcome String) : ToolResult :=
  match o with
  | .thrown msg =>
    { content := [.text ("Error getting elevation data: " ++ msg)]
      isError := true }
  | .fail err =>
    { content := [.text (err.getD "Failed to get elevation data")]
      isError := true }
  | .ok d => { content := [.text d], isError := false }

/-- **C7.** For each of the three tool handlers and every behaviour of the
underlying `PlacesSearcher` — resolving with success, resolving with failure,
or throwing — the handler returns normally (each `ACTION` is a total function
into `ToolResult`, so no raw fault escapes to the dispatcher) with a
well-formed result: the content is exactly one text block, and `isError` is
`true` exactly on the failure branches (`fail`/`thrown`) and `false` exactly
on the success branch. -/
theorem tool_actions_never_leak_faults :
    (∀ o : SearcherOutcome SearchNearbyOk,
      (searchNearbyACTION o).isError = o.isFault ∧
      ∃ s, (searchNearbyACTION o).content = [.text s]) ∧
    (∀ o : SearcherOutcome String,
      (placeDetailsACTION o).isError = o.isFault ∧
      ∃ s, (placeDetailsACTION o).content = [.text s]) ∧
    (∀ o : SearcherOutcome String,
      (elevationACTION o).isError = o.isFault ∧
      ∃ s, (elevationACTION o).content = [.text s]) := by
  refine ⟨?_, ?_, ?_⟩ <;>
    intro o <;>
    cases o <;>
    exact ⟨rfl, _, rfl⟩

/-! ## Tool dispatch with schema validation (`searchNearby.ts` schema,
`BaseMcpServer.registerTools`) -/

/-- The raw `center` argument of `search_nearby` before validation; `none`
fields are absent in the JSON. -/
structure RawCenter where
  value : Option String
  isCoordinates : Option Bool
deriving DecidableEq, Repr

/-- The raw arguments of a `search_nearby` call before validation.  Fields
carry their schema's base type; absence is `none`.  (Arguments of an entirely
wrong JSON type are rejected even earlier by `zod` and are not modelled.) -/
structure RawSearchNearbyArgs where
  center : Option RawCenter
  keyword : Option String
  radius : Option ℚ
  openNow : Option Bool
  minRating : Option ℚ
deriving DecidableEq, Repr

structure Center where
  value : String
  isCoordinates : Bool
deriving DecidableEq, Repr

/-- The validated, schema-coerced parameters handed to `ACTION`. -/
structure SearchNearbyParams where
  center : Center
  keyword : Option String
  radius : ℚ
  openNow : Bool
  minRating : Option ℚ
deriving DecidableEq, Repr

/-- Validation against `searchNearbySchema` (`searchNearby.ts` lines 7–16):
`center.value` is required, `center.isCoordinates` defaults to `false`,
`radius` defaults to `1000`, `openNow` defaults to `false`, and `minRating`
is optional with `.min(0).max(5)`. -/
def validateSearchNearby (raw : RawSearchNearbyArgs) :
    Except String SearchNearbyParams :=
  match raw.center with
  | none => .error "center: Required"
  | some c =>
    match c.value with
    | none => .error "center.value: Required"
    | some v =>
      match raw.minRating with
      | some r =>
        if r < 0 then
          .error "minRating: Number must be greater than or equal to 0"
        else if 5 < r then
          .error "minRating: Number must be less than or equal to 5"
        else
          .ok { center := { value := v, isCoordinates := c.isCoordinates.getD false }
                keyword := raw.keyword
                radius := raw.radius.getD 1000
                openNow := raw.openNow.getD false
                minRating := some r }
      | none =>
        .ok { center := { value := v, isCoordinates := c.isCoordinates.getD false }
              keyword := raw.keyword
              radius := raw.radius.getD 1000
              openNow := raw.openNow.getD false
              minRating := none }

/-- Modelled from the spec: the MCP SDK dispatcher that
`BaseMcpServer.registerTools` binds the handler into
(`this.server.tool(name, description, schema, action)`) lives outside this
repository.  Per the spec (§4.2), it validates the raw arguments against the
registered schema and, on failure, returns a protocol-level error result
(`isError: true`) *without invoking the handler*; on success it invokes the
handler with the validated, default-coerced parameters.  The second component
of the result records whether the handler was invoked. -/
def dispatchSearchNearby (handler : SearchNearbyParams → ToolResult)
    (raw : RawSearchNearbyArgs) : ToolResult × Bool :=
  match validateSearchNearby raw with
  | .error msg => ({ content := [.text msg], isError := true }, false)
  | .ok p => (handler p, true)

/-- **C8.** For every `search_nearby` call whose parameters violate the
declared schema — in particular a `minRating` outside the declared 0-to-5
bound, such as `minRating = 7` — dispatch returns an `isError: true`
protocol-level error result and the tool's `ACTION` handler is never
invoked. -/
theorem invalid_params_rejected_before_handler
    (handler : SearchNearbyParams → ToolResult) (raw : RawSearchNearbyArgs)
    (h : ∃ msg, validateSearchNearby raw = .error msg) :
    (dispatchSearchNearby handler raw).1.isError = true ∧
    (dispatchSearchNearby handler raw).2 = false := by
  obtain ⟨msg, hmsg⟩ := h
  simp [dispatchSearchNearby, hmsg]

/-- Witness for C8: `minRating = 7` against the 0–5 bound is rejected before
any handler runs — even a handler that would report success is never
consulted. -/
theorem invalid_params_rejected_before_handler_witness :
    (dispatchSearchNearby (fun _ => { content := [], isError := false })
      { center := some { value := some "40.0,-75.0", isCoordinates := some true }
        keyword := none, radius := none, openNow := none
        minRating := some 7 }).1.isError = true ∧
    (dispatchSearchNearby (fun _ => { content := [], isError := false })
      { center := some { value := some "40.0,-75.0", isCoordinates := some true }
        keyword := none, radius := none, openNow := none
        minRating := some 7 }).2 = false :=
  invalid_params_rejected_before_handler _ _
    ⟨"minRating: Number must be less than or equal to 5", by
      simp [validateSearchNearby]
      norm_num⟩

/-! ## `RiskScapeTools.searchNearbyPlaces` (filter pipeline) -/

/-- The `hours` object of a raw RiskScape place. -/
structure RawHours where
  open_now : Option Bool
deriving DecidableEq, Repr

/-- One element of `data.results` as `searchNearbyPlaces` reads it. -/
structure RawPlace where
  name : String
  id : String
  address : Option String
  lat : ℚ
  lng : ℚ
  rating : Option ℚ
  review_count : Option Nat
  hours : Option RawHours
deriving DecidableEq, Repr

/-- The `PlaceResult` shape `searchNearbyPlaces` maps each raw place to.
`opening_hours` is `some h.open_now` when `place.hours` is present and
`none` (`undefined`) otherwise. -/
structure PlaceResult where
  name : String
  place_id : String
  formatted_address : Option String
  lat : ℚ
  lng : ℚ
  rating : Option ℚ
  user_ratings_total : Option Nat
  opening_hours : Option (Option Bool)
deriving DecidableEq, Repr

/-- The filter-relevant part of `SearchParams` (the `location`, `radius` and
`keyword` fields only shape the outgoing query string and do not affect the
filter pipeline). -/
structure RsSearchParams where
  openNow : Option Bool
  minRating : Option ℚ
deriving DecidableEq, Repr

/-- `place.hours?.open_now === true` as a Bool. -/
def hoursOpenNow (p : RawPlace) : Bool :=
  match p.hours with
  | some h => h.open_now == some true
  | none => false

/-- `place.rating || 0`: JavaScript `||` yields the right operand when
`rating` is absent or `0`, which coincides with `Option.getD 0` as a
value. -/
def ratingOr0 (p : RawPlace) : ℚ := p.rating.getD 0

/-- The filter-and-map pipeline of `RiskScapeTools.searchNearbyPlaces`
(lines 88–115), applied to the `data.results || []` list returned by the
upstream call.  `if (params.openNow)` is truthy exactly for `some true`;
`if (params.minRating)` is truthy exactly for a present, non-zero number. -/
def searchNearbyPlaces (params : RsSearchParams) (results : List RawPlace) :
    List PlaceResult :=
  let filtered := results
  let filtered :=
    if params.openNow = some true then filtered.filter hoursOpenNow
    else filtered
  let filtered :=
    match params.minRating with
    | some r => if r ≠ 0 then filtered.filter (fun p => r ≤ ratingOr0 p)
                else filtered
    | none => filtered
  filtered.map (fun p =>
    { name := p.name
      place_id := p.id
      formatted_address := p.address
      lat := p.lat
      lng := p.lng
      rating := p.rating
      user_ratings_total := p.review_count
      opening_hours := p.hours.map (fun h => h.open_now) })

/-- **C9.** In `RiskScapeTools.searchNearbyPlaces`, when `minRating` is a
positive number every place in the returned list satisfies
`(rating, taking 0 when the rating field is missing) ≥ minRating`; and when
`minRating` equals `0` the rating filter is skipped entirely, so the returned
list is identical to the one produced when `minRating` is omitted. -/
theorem searchNearbyPlaces_minRating
    (params : RsSearchParams) (results : List RawPlace) (r : ℚ)
    (hmr : params.minRating = some r) (hpos : 0 < r) :
    (∀ p ∈ searchNearbyPlaces params results, r ≤ p.rating.getD 0) ∧
    (∀ ps : RsSearchParams, ∀ rs : List RawPlace,
      searchNearbyPlaces { ps with minRating := some 0 } rs
        = searchNearbyPlaces { ps with minRating := none } rs) := by
  constructor
  · intro p hp
    simp only [searchNearbyPlaces, hmr, if_pos (ne_of_gt hpos)] at hp
    obtain ⟨q, hq, hqp⟩ := List.mem_map.mp hp
    have hfil := (List.mem_filter.mp hq).2
    have hrat : r ≤ ratingOr0 q := by simpa using hfil
    have : p.rating = q.rating := by rw [← hqp]
    rw [this]
    exact hrat
  · intro ps rs
    simp [searchNearbyPlaces]

/-- Witness for C9: with `minRating = 3`, the lone rating-4 place survives
and its reported rating clears the bound; and `minRating = 0` produces
exactly the `minRating`-omitted list. -/
theorem searchNearbyPlaces_minRating_witness :
    (∀ p ∈ searchNearbyPlaces { openNow := none, minRating := some 3 }
        [{ name := "a", id := "p1", address := none, lat := 1, lng := 2
           rating := some 4, review_count := none, hours := none }],
      (3 : ℚ) ≤ p.rating.getD 0) ∧
    searchNearbyPlaces { openNow := none, minRating := some 0 }
        [{ name := "a", id := "p1", address := none, lat := 1, lng := 2
           rating := some 4, review_count := none, hours := none }]
      = searchNearbyPlaces { openNow := none, minRating := none }
        [{ name := "a", id := "p1", address := none, lat := 1, lng := 2
           rating := some 4, review_count := none, hours := none }] := by
  have h := searchNearbyPlaces_minRating
    { openNow := none, minRating := some 3 }
    [{ name := "a", id := "p1", address := none, lat := 1, lng := 2
       rating := some 4, review_count := none, hours := none }]
    3 rfl (by norm_num)
  exact ⟨h.1, h.2 { openNow := none, minRating := some 3 } _⟩

/-! ## `RiskScapeTools.calculateDistanceMatrix` and `parseCoordinates` -/

/-- `str.split(",")` on the character list of a JavaScript string:
`"".split(",") = [""]`, `"a,b".split(",") = ["a","b"]`. -/
def splitOnComma : List Char → List (List Char)
  | [] => [[]]
  | c :: rest =>
    if c = ',' then [] :: splitOnComma rest
    else
      match splitOnComma rest with
      | [] => [[c]]
      | l :: ls => (c :: l) :: ls

/-- `str.trim()` on a character list: strip leading and trailing
whitespace. -/
def trimChars (l : List Char) : List Char :=
  ((l.dropWhile Char.isWhitespace).reverse.dropWhile Char.isWhitespace).reverse

/-- Decimal value of a digit string. -/
def digitsVal (l : List Char) : ℕ :=
  l.foldl (fun a c => a * 10 + (c.toNat - '0'.toNat)) 0

/-- Integer-and-fraction part of a numeric literal. -/
def floatCore (cs : List Char) : Option ℚ :=
  if (cs.takeWhile Char.isDigit).isEmpty
      && (match cs.dropWhile Char.isDigit with
          | '.' :: r2 => (r2.takeWhile Char.isDigit).isEmpty
          | _ => true) then
    none
  else
    some ((digitsVal (cs.takeWhile Char.isDigit) : ℚ) +
      (match cs.dropWhile Char.isDigit with
       | '.' :: r2 => (digitsVal (r2.takeWhile Char.isDigit) : ℚ)
            / (10 ^ (r2.takeWhile Char.isDigit).length)
       | _ => 0))

/-- Models JavaScript's `parseFloat` on already-trimmed input: an optional
sign followed by digits with an optional fractional part, reading the
longest numeric prefix; `none` models `NaN`.  (Exponent forms, `Infinity`
and leading whitespace — the caller trims first — are not modelled; no
input relevant to these claims uses them.) -/
def jsParseFloat (cs : List Char) : Option ℚ :=
  match cs with
  | '-' :: rest => (floatCore rest).map (fun q => -q)
  | '+' :: rest => floatCore rest
  | cs => floatCore cs

/-- `RiskScapeTools.parseCoordinates` (lines 176–182): split on `","`, trim
and `parseFloat` each part; throw unless there are exactly two numeric
parts. -/
def parseCoordinates (coordString : String) : Except String (ℚ × ℚ) :=
  match (splitOnComma coordString.toList).map (fun c => jsParseFloat (trimChars c)) with
  | [some a, some b] => .ok (a, b)
  | _ => .error "Invalid coordinate format, please use 'latitude,longitude' format"

/-- The per-string branch of `calculateDistanceMatrix` (lines 256–274):
`if (x.includes(',') && x.split(',').length === 2)` parse as coordinates,
otherwise geocode.  The geocoding call is external (network I/O) and enters
as the parameter `geocode`; the Bool in the result records whether geocoding
was used for this string. -/
def resolvePoint (geocode : String → Except String (ℚ × ℚ)) (s : String) :
    Except String ((ℚ × ℚ) × Bool) :=
  if s.toList.contains ',' ∧ (splitOnComma s.toList).length = 2 then
    (parseCoordinates s).map (fun c => (c, false))
  else
    (geocode s).map (fun c => (c, true))

/-- `await Promise.all(xs.map(async x => ...))`: resolve each element,
failing as soon as one fails. -/
def mapExcept {α : Type} (f : String → Except String α) :
    List String → Except String (List α)
  | [] => .ok []
  | x :: xs =>
    match f x with
    | .error e => .error e
    | .ok y =>
      match mapExcept f xs with
      | .error e => .error e
      | .ok ys => .ok (y :: ys)

/-- `const riskscapeMode = mode === "bicycling" ? "cycling" : mode`. -/
def riskscapeMode (mode : String) : String :=
  if mode = "bicycling" then "cycling" else mode

/-- The body of the `try` block of `calculateDistanceMatrix`: resolve all
origins, then all destinations, then call the upstream matrix endpoint
(external, parameter `matrixApi`) with the coordinates and translated
mode. -/
def distanceMatrixTry {α : Type} (geocode : String → Except String (ℚ × ℚ))
    (matrixApi : List (ℚ × ℚ) → List (ℚ × ℚ) → String → Except String α)
    (origins destinations : List String) (mode : String) :
    Except String α :=
  match mapExcept (resolvePoint geocode) origins with
  | .error e => .error e
  | .ok os =>
    match mapExcept (resolvePoint geocode) destinations with
    | .error e => .error e
    | .ok ds =>
      matrixApi (os.map Prod.fst) (ds.map Prod.fst) (riskscapeMode mode)

/-- `RiskScapeTools.calculateDistanceMatrix` (lines 244–299): the `catch`
block rethrows every failure inside the `try` as the fixed distance-matrix
error. -/
def calculateDistanceMatrix {α : Type}
    (geocode : String → Except String (ℚ × ℚ))
    (matrixApi : List (ℚ × ℚ) → List (ℚ × ℚ) → String → Except String α)
    (origins destinations : List String) (mode : String) :
    Except String α :=
  match distanceMatrixTry geocode matrixApi origins destinations mode with
  | .ok v => .ok v
  | .error _ => .error "Error occurred while calculating distance matrix"

lemma mapExcept_error_of_mem {α : Type} (f : String → Except String α)
    (l : List String) (s : String) (hs : s ∈ l) (e : String)
    (hf : f s = .error e) : ∃ e', mapExcept f l = .error e' := by
  induction l with
  | nil => cases hs
  | cons x xs ih =>
    cases hfx : f x with
    | error e' => exact ⟨e', by simp [mapExcept, hfx]⟩
    | ok y =>
      rcases List.mem_cons.mp hs with h | h
      · rw [← h] at hfx
        rw [hf] at hfx
        cases hfx
      · obtain ⟨e', he'⟩ := ih h
        exact ⟨e', by simp [mapExcept, hfx, he']⟩

/-- **C10.** In `RiskScapeTools.calculateDistanceMatrix`, every origin or
destination string satisfying the code's coordinate test (contains a comma
and splits on `","` into exactly two parts, i.e. exactly one comma) is
parsed by `parseCoordinates` and never sent to geocoding: its resolution is
the parse result, independent of the geocoder, and never flagged as
geocoded.  Consequently any such string whose two parts are not both numeric,
appearing among the origins or among the destinations, makes the whole call
fail with the distance-matrix error, wrapping the invalid-coordinate-format
error, rather than being geocoded as an address. -/
theorem distanceMatrix_comma_strings_never_geocoded :
    (∀ (g₁ g₂ : String → Except String (ℚ × ℚ)) (s : String),
      s.toList.contains ',' = true → (splitOnComma s.toList).length = 2 →
      resolvePoint g₁ s = (parseCoordinates s).map (fun c => (c, false)) ∧
      resolvePoint g₁ s = resolvePoint g₂ s ∧
      (∀ c, resolvePoint g₁ s = .ok c → c.2 = false)) ∧
    (∀ {α : Type} (g : String → Except String (ℚ × ℚ))
      (matrixApi : List (ℚ × ℚ) → List (ℚ × ℚ) → String → Except String α)
      (origins destinations : List String) (mode s : String),
      s.toList.contains ',' = true → (splitOnComma s.toList).length = 2 →
      parseCoordinates s =
        .error "Invalid coordinate format, please use 'latitude,longitude' format" →
      s ∈ origins ∨ s ∈ destinations →
      calculateDistanceMatrix g matrixApi origins destinations mode
        = .error "Error occurred while calculating distance matrix") := by
  have hres : ∀ (g : String → Except String (ℚ × ℚ)) (s : String),
      s.toList.contains ',' = true → (splitOnComma s.toList).length = 2 →
      resolvePoint g s = (parseCoordinates s).map (fun c => (c, false)) := by
    intro g s hc hl
    simp only [resolvePoint]
    rw [if_pos ⟨hc, hl⟩]
  constructor
  · intro g₁ g₂ s hc hl
    refine ⟨hres g₁ s hc hl, (hres g₁ s hc hl).trans (hres g₂ s hc hl).symm, ?_⟩
    intro c hok
    rw [hres g₁ s hc hl] at hok
    cases hp : parseCoordinates s with
    | error e => rw [hp] at hok; cases hok
    | ok v =>
      rw [hp] at hok
      injection hok with hok
      rw [← hok]
  · intro α g matrixApi origins destinations mode s hc hl hbad hmem
    have hfail : resolvePoint g s =
        .error "Invalid coordinate format, please use 'latitude,longitude' format" := by
      rw [hres g s hc hl, hbad]
      rfl
    rcases hmem with hmem | hmem
    · obtain ⟨e', he'⟩ :=
        mapExcept_error_of_mem (resolvePoint g) origins s hmem _ hfail
      simp [calculateDistanceMatrix, distanceMatrixTry, he']
    · cases ho : mapExcept (resolvePoint g) origins with
      | error e => simp [calculateDistanceMatrix, distanceMatrixTry, ho]
      | ok os =>
        obtain ⟨e', he'⟩ :=
          mapExcept_error_of_mem (resolvePoint g) destinations s hmem _ hfail
        simp [calculateDistanceMatrix, distanceMatrixTry, ho, he']

/-- Witness for C10: `"Paris, France"` has exactly one comma and its parts
are not both numeric; whether it appears among the origins or among the
destinations, the matrix call fails with the distance-matrix error instead
of geocoding it — even with a geocoder and matrix endpoint that always
succeed. -/
theorem distanceMatrix_comma_strings_never_geocoded_witness :
    (calculateDistanceMatrix (fun _ => .ok ((0 : ℚ), (0 : ℚ)))
      (fun _ _ _ => .ok (0 : ℕ)) ["Paris, France"] ["1,2"] "driving"
      = .error "Error occurred while calculating distance matrix") ∧
    (calculateDistanceMatrix (fun _ => .ok ((0 : ℚ), (0 : ℚ)))
      (fun _ _ _ => .ok (0 : ℕ)) ["1,2"] ["Paris, France"] "driving"
      = .error "Error occurred while calculating distance matrix") :=
  ⟨distanceMatrix_comma_strings_never_geocoded.2
      (fun _ => .ok ((0 : ℚ), (0 : ℚ))) (fun _ _ _ => .ok (0 : ℕ))
      ["Paris, France"] ["1,2"] "driving" "Paris, France"
      (by decide) (by decide) rfl (Or.inl (by simp)),
    distanceMatrix_comma_strings_never_geocoded.2
      (fun _ => .ok ((0 : ℚ), (0 : ℚ))) (fun _ _ _ => .ok (0 : ℕ))
      ["1,2"] ["Paris, France"] "driving" "Paris, France"
      (by decide) (by decide) rfl (Or.inr (by simp))⟩

end McpMap
